import Mathlib

/-!
Shallow embedding of the time-synchronized path-animation engine of
`src/components/Office3D.tsx` (the `WalkerAvatar` component, its per-frame
`useFrame` callback, its `showDialog` helper and the `TimeSyncedDialog`
companion), together with the parts of three.js (`CatmullRomCurve3`,
`Curve.getLengths`, `Curve.getUtoTmapping`, `Curve.getPointAt`) that the
component calls with fixed arguments (`closed = false`,
`curveType = 'catmullrom'`, `tension = 0.15`, 200 arc-length divisions).

Rational numbers stand for the JavaScript numbers in the phase arithmetic
(every operation there is field arithmetic, comparison and floor); real
numbers are used where `Math.sin` and Euclidean distances (`Math.sqrt`)
enter.  JavaScript's `%` on a non-negative dividend and positive divisor
is `a - b * ⌊a / b⌋`, which is how it is embedded (`jsMod`); all claims
quantify over `elapsed ≥ 0` and `offset ≥ 0`, where this agrees with `%`.
-/

namespace Office3D

/-- Configuration of one `WalkerAvatar`: the props `duration` (one leg of
the walk, default 10), `offset` (per-entity time shift, default 0) and
`dwell` (pause length, default 3).  `points`, `scale`, `url`, `endLabel`
are kept separately where needed. -/
structure WalkerConfig where
  duration : ℚ
  offset : ℚ
  dwell : ℚ
deriving DecidableEq, Repr

/-- JavaScript `a % b` for a non-negative dividend `a` and positive
divisor `b` (the only way the source uses `%`): `a - b * ⌊a / b⌋`. -/
def jsMod (a b : ℚ) : ℚ := a - b * ⌊a / b⌋

/-- `const cycle = leg + dwell + leg + dwell` with `leg = duration`. -/
def cycle (c : WalkerConfig) : ℚ := c.duration + c.dwell + c.duration + c.dwell

/-- `const raw = (clock.getElapsedTime() + offset) % cycle`. -/
def rawOf (c : WalkerConfig) (elapsed : ℚ) : ℚ :=
  jsMod (elapsed + c.offset) (cycle c)

/-- The four segments of one movement cycle, as named by the spec.  The
source does not reify them; they classify which branch of the `tt`
if-chain runs. -/
inductive Phase where
  | forward
  | dwellAtEnd
  | backward
  | dwellAtStart
deriving DecidableEq, Repr

/-- Which branch of the source's `tt` if-chain the frame at `elapsed`
takes:
`raw < leg` → forward, `raw < leg + dwell` → dwell at end,
`raw < leg + dwell + leg` → backward, otherwise dwell at start. -/
def phaseOf (c : WalkerConfig) (elapsed : ℚ) : Phase :=
  let leg := c.duration
  let raw := rawOf c elapsed
  if raw < leg then .forward
  else if raw < leg + c.dwell then .dwellAtEnd
  else if raw < leg + c.dwell + leg then .backward
  else .dwellAtStart

/-- The curve parameter `tt` computed by the frame callback:
`raw / leg` going forward, `1` dwelling at the end,
`1 - (raw - leg - dwell) / leg` going back, `0` dwelling at the start.
The spec calls this `localT`. -/
def localT (c : WalkerConfig) (elapsed : ℚ) : ℚ :=
  let leg := c.duration
  let raw := rawOf c elapsed
  if raw < leg then raw / leg
  else if raw < leg + c.dwell then 1
  else if raw < leg + c.dwell + leg then 1 - (raw - leg - c.dwell) / leg
  else 0

/-- The parameter the heading lookahead is evaluated at:
`Math.min(1, tt + 0.002)` — in every phase. -/
def lookaheadT (c : WalkerConfig) (elapsed : ℚ) : ℚ :=
  min 1 (localT c elapsed + 1/500)

/-- `const moving = !(raw >= leg && raw < leg + dwell) && !(raw >= leg + dwell + leg && raw < cycle)`. -/
def movingFlag (c : WalkerConfig) (elapsed : ℚ) : Bool :=
  let leg := c.duration
  let raw := rawOf c elapsed
  !(decide (leg ≤ raw ∧ raw < leg + c.dwell)) &&
    !(decide (leg + c.dwell + leg ≤ raw ∧ raw < cycle c))

/-- `showDialog(time)`: `raw >= leg && raw < leg + dwell` where
`raw = (time + offset) % cycle`.  `TimeSyncedDialog` re-evaluates this
every frame at the same global clock value, so dialog visibility at
`elapsed` is exactly this value. -/
def showDialog (c : WalkerConfig) (time : ℚ) : Bool :=
  let leg := c.duration
  let raw := rawOf c time
  decide (leg ≤ raw ∧ raw < leg + c.dwell)

/-! ### The curve: three.js `CatmullRomCurve3` as the source configures it

`WalkerAvatar` builds `new THREE.CatmullRomCurve3(points, false, 'catmullrom', 0.15)`
and samples it with `curve.getPointAt(tt)`.  The definitions below embed
`getPoint`, `getLengths` (200 divisions, three.js's default
`arcLengthDivisions`), `getUtoTmapping` and `getPointAt` for exactly this
configuration: open curve (`closed = false`), uniform `'catmullrom'`
parameterization with an explicit tension. -/

/-- A three.js `Vector3`. -/
structure Vec3 where
  x : ℝ
  y : ℝ
  z : ℝ

def Vec3.add (a b : Vec3) : Vec3 := ⟨a.x + b.x, a.y + b.y, a.z + b.z⟩

def Vec3.sub (a b : Vec3) : Vec3 := ⟨a.x - b.x, a.y - b.y, a.z - b.z⟩

/-- `Vector3.distanceTo`: Euclidean distance. -/
noncomputable def Vec3.distanceTo (a b : Vec3) : ℝ :=
  Real.sqrt ((a.x - b.x) ^ 2 + (a.y - b.y) ^ 2 + (a.z - b.z) ^ 2)

/-- three.js `CubicPoly`: coefficients of `c0 + c1 w + c2 w² + c3 w³`. -/
structure CubicPoly where
  c0 : ℝ
  c1 : ℝ
  c2 : ℝ
  c3 : ℝ

/-- `CubicPoly.initCatmullRom(x0, x1, x2, x3, tension)`: interpolates
`x1` (at 0) to `x2` (at 1) with tangents `tension * (x2 - x0)` and
`tension * (x3 - x1)`. -/
def initCatmullRom (x0 x1 x2 x3 tension : ℝ) : CubicPoly :=
  let t0 := tension * (x2 - x0)
  let t1 := tension * (x3 - x1)
  ⟨x1, t0, -3 * x1 + 3 * x2 - 2 * t0 - t1, 2 * x1 - 2 * x2 + t0 + t1⟩

/-- `CubicPoly.calc(t)` (named `calcAt` because `calc` is reserved). -/
def CubicPoly.calcAt (p : CubicPoly) (w : ℝ) : ℝ :=
  p.c0 + p.c1 * w + p.c2 * w * w + p.c3 * w * w * w

/-- JavaScript array indexing `points[i]` for the in-range indices
`getPoint` produces (all non-negative and below the length there). -/
def nth (pts : List Vec3) (i : ℤ) : Vec3 := pts.getD i.toNat ⟨0, 0, 0⟩

open Classical in
/-- `CatmullRomCurve3.getPoint(t)` for an open (`closed = false`) curve of
type `'catmullrom'`.  `intPoint = ⌊(l - 1) t⌋` picks the segment and
`weight` the position inside it; at `t = 1` (`weight == 0 &&
intPoint == l - 1`) the last segment is reused with `weight = 1`; the
phantom ends `2·P₀ - P₁` and `2·P_last - P_prev` replace the missing
neighbours of the first and last waypoint.  Integer `%` here is on
non-negative operands, where JavaScript's remainder agrees with `emod`. -/
noncomputable def getPoint (pts : List Vec3) (tension : ℝ) (t : ℝ) : Vec3 :=
  let l : ℤ := pts.length
  let p : ℝ := ((l : ℝ) - 1) * t
  let intPoint0 : ℤ := ⌊p⌋
  let weight0 : ℝ := p - (intPoint0 : ℝ)
  let intPoint : ℤ := if weight0 = 0 ∧ intPoint0 = l - 1 then l - 2 else intPoint0
  let weight : ℝ := if weight0 = 0 ∧ intPoint0 = l - 1 then 1 else weight0
  let p0 : Vec3 :=
    if 0 < intPoint then nth pts ((intPoint - 1) % l)
    else ((nth pts 0).sub (nth pts 1)).add (nth pts 0)
  let p1 : Vec3 := nth pts (intPoint % l)
  let p2 : Vec3 := nth pts ((intPoint + 1) % l)
  let p3 : Vec3 :=
    if intPoint + 2 < l then nth pts ((intPoint + 2) % l)
    else ((nth pts (l - 1)).sub (nth pts (l - 2))).add (nth pts (l - 1))
  ⟨(initCatmullRom p0.x p1.x p2.x p3.x tension).calcAt weight,
   (initCatmullRom p0.y p1.y p2.y p3.y tension).calcAt weight,
   (initCatmullRom p0.z p1.z p2.z p3.z tension).calcAt weight⟩

/-- `Curve.getLengths(200)` as the cumulative table: entry `k` is the
summed Euclidean distance of the first `k` of the 200 chords between
samples `getPoint(p / 200)`, `p = 0 … 200`. -/
noncomputable def arcLengths (pts : List Vec3) (tension : ℝ) : ℕ → ℝ
  | 0 => 0
  | k + 1 =>
    arcLengths pts tension k +
      (getPoint pts tension (((k : ℝ) + 1) / 200)).distanceTo
        (getPoint pts tension ((k : ℝ) / 200))

open Classical in
/-- The `while (low <= high)` binary search of `Curve.getUtoTmapping`,
with explicit fuel (the caller passes 201 = the table size, far more than
the ⌈log₂ 201⌉ iterations a run can take, so the fuel never runs out).
The loop body: probe `i = ⌊low + (high - low) / 2⌋`, compare
`arcLengths[i]` with the target, halve, and on an exact hit exit with
`i` (the source sets `high = i; break` and then reads `i = high`). -/
noncomputable def searchLoop (arc : ℕ → ℝ) (target : ℝ) : ℕ → ℤ → ℤ → ℤ
  | 0, _, high => high
  | fuel + 1, low, high =>
    if low ≤ high then
      let i : ℤ := ⌊(low : ℝ) + ((high : ℝ) - (low : ℝ)) / 2⌋
      let comparison : ℝ := arc i.toNat - target
      if comparison < 0 then searchLoop arc target fuel (i + 1) high
      else if 0 < comparison then searchLoop arc target fuel low (i - 1)
      else i
    else high

open Classical in
/-- `Curve.getUtoTmapping(u)`: binary-search the arc-length table for
`u * totalLength`; on an exact table hit return `i / 200`, otherwise
interpolate linearly inside segment `i`. -/
noncomputable def getUtoTmapping (pts : List Vec3) (tension : ℝ) (u : ℝ) : ℝ :=
  let arc := arcLengths pts tension
  let targetArcLength := u * arc 200
  let i : ℤ := searchLoop arc targetArcLength 201 0 200
  if arc i.toNat = targetArcLength then (i : ℝ) / 200
  else
    let lengthBefore := arc i.toNat
    let lengthAfter := arc (i.toNat + 1)
    let segmentLength := lengthAfter - lengthBefore
    let segmentFraction := (targetArcLength - lengthBefore) / segmentLength
    ((i : ℝ) + segmentFraction) / 200

/-- `Curve.getPointAt(u)`: evaluate at the arc-length-equalized
parameter. -/
noncomputable def getPointAt (pts : List Vec3) (tension : ℝ) (u : ℝ) : Vec3 :=
  getPoint pts tension (getUtoTmapping pts tension u)

/-! ### Secondary walking motion, per-frame state, construction -/

/-- `const step = Math.sin((tt + offset) * Math.PI * 6)`. -/
noncomputable def stepValue (c : WalkerConfig) (elapsed : ℚ) : ℝ :=
  Real.sin (((localT c elapsed : ℚ) + (c.offset : ℚ) : ℚ) * Real.pi * 6)

/-- Vertical offset of the avatar above the curve point: `step * 0.02`
while `moving`, otherwise the frame writes `position.y = pos.y`, i.e. an
offset of exactly `0`. -/
noncomputable def verticalOffset (c : WalkerConfig) (elapsed : ℚ) : ℝ :=
  if movingFlag c elapsed then stepValue c elapsed * 0.02 else 0

/-- `rotation.z`: `Math.sin((tt + offset) * Math.PI * 3) * 0.05` while
`moving`, otherwise exactly `0`. -/
noncomputable def roll (c : WalkerConfig) (elapsed : ℚ) : ℝ :=
  if movingFlag c elapsed then
    Real.sin (((localT c elapsed : ℚ) + (c.offset : ℚ) : ℚ) * Real.pi * 3) * 0.05
  else 0

/-- Everything the frame callback (and the dialog's frame callback)
writes, for one walker: the group's position (`posX`/`posY`/`posZ`, with
`posY` already including the bob), the `lookAt` target, `rotation.z`,
the dialog's `display` flag, and the derived `phase`/`tt` they came
from. -/
structure FrameState where
  phase : Phase
  tt : ℚ
  posX : ℝ
  posY : ℝ
  posZ : ℝ
  lookX : ℝ
  lookY : ℝ
  lookZ : ℝ
  rotZ : ℝ
  dialogVisible : Bool

/-- One run of the `useFrame` callbacks at clock value `elapsed`,
starting from the state the previous frames left behind.  Every field is
overwritten from values computed out of `(elapsed, offset, config)`
alone — `position.copy(pos)`, `lookAt(ahead.x, pos.y, ahead.z)`, then
`position.y` and `rotation.z` from the `moving` branch, and
`visibleRef.current = visibleFor(clock.getElapsedTime())` — so the
previous state is never read. -/
noncomputable def frameStep (pts : List Vec3) (tension : ℝ) (c : WalkerConfig)
    (_prev : FrameState) (elapsed : ℚ) : FrameState :=
  let tt := localT c elapsed
  let pos := getPointAt pts tension (tt : ℝ)
  let ahead := getPointAt pts tension ((lookaheadT c elapsed : ℚ) : ℝ)
  { phase := phaseOf c elapsed
    tt := tt
    posX := pos.x
    posY := pos.y + verticalOffset c elapsed
    posZ := pos.z
    lookX := ahead.x
    lookY := pos.y
    lookZ := ahead.z
    rotZ := roll c elapsed
    dialogVisible := showDialog c elapsed }

/-- The pure per-frame output: `frameStep` ignoring the inherited
state. -/
noncomputable def frameOutput (pts : List Vec3) (tension : ℝ) (c : WalkerConfig)
    (elapsed : ℚ) : FrameState :=
  let tt := localT c elapsed
  let pos := getPointAt pts tension (tt : ℝ)
  let ahead := getPointAt pts tension ((lookaheadT c elapsed : ℚ) : ℝ)
  { phase := phaseOf c elapsed
    tt := tt
    posX := pos.x
    posY := pos.y + verticalOffset c elapsed
    posZ := pos.z
    lookX := ahead.x
    lookY := pos.y
    lookZ := ahead.z
    rotZ := roll c elapsed
    dialogVisible := showDialog c elapsed }

/-- The single error kind the spec's §7 taxonomy names. -/
inductive ConfigurationError where
  | tooFewWaypoints
  | nonPositiveForwardDuration
  | negativeDwell
  | negativeOffset
deriving DecidableEq, Repr

/-- What `WalkerAvatar` sets up once per entity: the memoized
`new THREE.CatmullRomCurve3(points, false, 'catmullrom', 0.15)` (the
constructor only stores its arguments) and
`const endPoint = points[points.length - 1]` (`undefined`, i.e. `none`,
on an empty list). -/
structure WalkerSetup where
  points : List Vec3
  closed : Bool
  curveType : String
  tension : ℚ
  endPoint : Option Vec3

set_option linter.unusedVariables false in
/-- Construction of a walker from its props.  The source performs no
validation whatsoever — no waypoint count check, no sign check on
`duration`, `dwell` or `offset` — and no code path produces an error, so
the result is always `Except.ok`. -/
def buildWalker (points : List Vec3) (duration offset dwell : ℚ) :
    Except ConfigurationError WalkerSetup :=
  Except.ok
    { points := points
      closed := false
      curveType := "catmullrom"
      tension := 0.15
      endPoint := points.getLast? }

/-! ### Real-time view of the dialog gate (for the per-cycle duration) -/

/-- JavaScript `a % b` over real time, same convention as `jsMod`. -/
noncomputable def jsModR (a b : ℝ) : ℝ := a - b * ⌊a / b⌋

/-- `raw` as a function of real elapsed time. -/
noncomputable def rawOfR (c : WalkerConfig) (e : ℝ) : ℝ :=
  jsModR (e + (c.offset : ℚ)) ((cycle c : ℚ) : ℝ)

/-- The set of real clock values at which `showDialog` holds:
`raw ∈ [leg, leg + dwell)`. -/
def visibleSet (c : WalkerConfig) : Set ℝ :=
  {e | ((c.duration : ℚ) : ℝ) ≤ rawOfR c e ∧
       rawOfR c e < ((c.duration : ℚ) : ℝ) + ((c.dwell : ℚ) : ℝ)}

/-- Modelled from the spec (§4.3 PoseSampler, secondary motion): the
vertical-offset formula the spec prescribes,
`bobAmplitude * sin(bobFrequency * 2π * (elapsed + offset))`, stated for
comparison against the source's `verticalOffset` above. -/
noncomputable def verticalOffsetSpec (bobAmplitude bobFrequency : ℝ)
    (c : WalkerConfig) (elapsed : ℚ) : ℝ :=
  bobAmplitude * Real.sin (bobFrequency * (2 * Real.pi) * ((elapsed : ℚ) + (c.offset : ℚ)))

/-! ### Concrete scenario data (spec §8) -/

/-- The spec's concrete scenario configuration: `forwardDuration = 8`,
`offset = 0`, `dwellDuration = 3`. -/
def cfg8 : WalkerConfig := ⟨8, 0, 3⟩

/-- The scenario waypoints `[(0,0,0), (5,0,0)]`. -/
def pts2 : List Vec3 := [⟨0, 0, 0⟩, ⟨5, 0, 0⟩]

/-- Configuration used to separate the two bob formulas:
`duration = 2`, `offset = 0`, `dwell = 0`. -/
def cfg6 : WalkerConfig := ⟨2, 0, 0⟩

/-- The x-coordinate polynomial of the scenario curve through
`(0,0,0)` and `(5,0,0)` with tension `0.15` (derived below from
`getPoint`): `(3/2)w + (21/2)w² - 7w³`. -/
noncomputable def scenarioPoly (w : ℝ) : ℝ := (3/2) * w + (21/2) * (w * w) - 7 * (w * w * w)

/-! ### Helper lemmas: range of `raw`, branch behaviour -/

theorem jsMod_eq_fract (a b : ℚ) (hb : b ≠ 0) : jsMod a b = b * Int.fract (a / b) := by
  unfold jsMod
  rw [Int.fract]
  field_simp

theorem jsMod_nonneg {a b : ℚ} (hb : 0 < b) : 0 ≤ jsMod a b := by
  rw [jsMod_eq_fract a b hb.ne']
  have := Int.fract_nonneg (a / b)
  positivity

theorem jsMod_lt {a b : ℚ} (hb : 0 < b) : jsMod a b < b := by
  rw [jsMod_eq_fract a b hb.ne']
  calc b * Int.fract (a / b) < b * 1 := by
        exact (mul_lt_mul_left hb).mpr (Int.fract_lt_one (a / b))
    _ = b := mul_one b

theorem cycle_eq (c : WalkerConfig) : cycle c = 2 * c.duration + 2 * c.dwell := by
  unfold cycle; ring

theorem cycle_pos {c : WalkerConfig} (hF : 0 < c.duration) (hD : 0 ≤ c.dwell) :
    0 < cycle c := by
  unfold cycle; linarith

theorem rawOf_nonneg {c : WalkerConfig} (hF : 0 < c.duration) (hD : 0 ≤ c.dwell)
    (e : ℚ) : 0 ≤ rawOf c e :=
  jsMod_nonneg (cycle_pos hF hD)

theorem rawOf_lt_cycle {c : WalkerConfig} (hF : 0 < c.duration) (hD : 0 ≤ c.dwell)
    (e : ℚ) : rawOf c e < cycle c :=
  jsMod_lt (cycle_pos hF hD)

theorem branch_forward {c : WalkerConfig} {e : ℚ} (h : rawOf c e < c.duration) :
    phaseOf c e = .forward ∧ localT c e = rawOf c e / c.duration := by
  constructor
  · simp only [phaseOf]; rw [if_pos h]
  · simp only [localT]; rw [if_pos h]

theorem branch_dwellAtEnd {c : WalkerConfig} {e : ℚ}
    (h1 : c.duration ≤ rawOf c e) (h2 : rawOf c e < c.duration + c.dwell) :
    phaseOf c e = .dwellAtEnd ∧ localT c e = 1 := by
  constructor
  · simp only [phaseOf]; rw [if_neg (not_lt.mpr h1), if_pos h2]
  · simp only [localT]; rw [if_neg (not_lt.mpr h1), if_pos h2]

theorem branch_backward {c : WalkerConfig} {e : ℚ} (hD : 0 ≤ c.dwell)
    (h1 : c.duration + c.dwell ≤ rawOf c e)
    (h2 : rawOf c e < c.duration + c.dwell + c.duration) :
    phaseOf c e = .backward ∧
      localT c e = 1 - (rawOf c e - c.duration - c.dwell) / c.duration := by
  have h0 : ¬ rawOf c e < c.duration := by
    intro h
    linarith
  constructor
  · simp only [phaseOf]; rw [if_neg h0, if_neg (not_lt.mpr h1), if_pos h2]
  · simp only [localT]; rw [if_neg h0, if_neg (not_lt.mpr h1), if_pos h2]

theorem branch_dwellAtStart {c : WalkerConfig} {e : ℚ} (hF : 0 < c.duration)
    (hD : 0 ≤ c.dwell) (h : c.duration + c.dwell + c.duration ≤ rawOf c e) :
    phaseOf c e = .dwellAtStart ∧ localT c e = 0 := by
  have h0 : ¬ rawOf c e < c.duration := by intro hx; linarith
  have h1 : ¬ rawOf c e < c.duration + c.dwell := by intro hx; linarith
  constructor
  · simp only [phaseOf]; rw [if_neg h0, if_neg h1, if_neg (not_lt.mpr h)]
  · simp only [localT]; rw [if_neg h0, if_neg h1, if_neg (not_lt.mpr h)]

theorem movingFlag_true_iff (c : WalkerConfig) (e : ℚ) :
    movingFlag c e = true ↔
      ¬(c.duration ≤ rawOf c e ∧ rawOf c e < c.duration + c.dwell) ∧
      ¬(c.duration + c.dwell + c.duration ≤ rawOf c e ∧ rawOf c e < cycle c) := by
  simp only [movingFlag, Bool.and_eq_true, Bool.not_eq_true', decide_eq_false_iff_not]

theorem showDialog_true_iff (c : WalkerConfig) (time : ℚ) :
    showDialog c time = true ↔
      c.duration ≤ rawOf c time ∧ rawOf c time < c.duration + c.dwell := by
  simp [showDialog]

theorem phaseOf_forward_iff (c : WalkerConfig) (e : ℚ) :
    phaseOf c e = .forward ↔ rawOf c e < c.duration := by
  simp only [phaseOf]
  split_ifs with h1 h2 h3
  · exact iff_of_true rfl h1
  · exact iff_of_false (by simp) h1
  · exact iff_of_false (by simp) h1
  · exact iff_of_false (by simp) h1

theorem phaseOf_dwellAtEnd_iff (c : WalkerConfig) (e : ℚ) :
    phaseOf c e = .dwellAtEnd ↔
      c.duration ≤ rawOf c e ∧ rawOf c e < c.duration + c.dwell := by
  simp only [phaseOf]
  split_ifs with h1 h2 h3
  · exact iff_of_false (by simp) (fun h => absurd h.1 (not_le.mpr h1))
  · exact iff_of_true rfl ⟨not_lt.mp h1, h2⟩
  · exact iff_of_false (by simp) (fun h => h2 h.2)
  · exact iff_of_false (by simp) (fun h => h2 h.2)

theorem phaseOf_backward_iff {c : WalkerConfig} (hD : 0 ≤ c.dwell) (e : ℚ) :
    phaseOf c e = .backward ↔
      c.duration + c.dwell ≤ rawOf c e ∧
      rawOf c e < c.duration + c.dwell + c.duration := by
  simp only [phaseOf]
  split_ifs with h1 h2 h3
  · exact iff_of_false (by simp) (fun h => by linarith [h.1])
  · exact iff_of_false (by simp) (fun h => absurd h.1 (not_le.mpr h2))
  · exact iff_of_true rfl ⟨not_lt.mp h2, h3⟩
  · exact iff_of_false (by simp) (fun h => h3 h.2)

theorem phaseOf_dwellAtStart_iff {c : WalkerConfig} (hF : 0 < c.duration)
    (hD : 0 ≤ c.dwell) (e : ℚ) :
    phaseOf c e = .dwellAtStart ↔
      c.duration + c.dwell + c.duration ≤ rawOf c e := by
  simp only [phaseOf]
  split_ifs with h1 h2 h3
  · exact iff_of_false (by simp) (fun h => by linarith)
  · exact iff_of_false (by simp) (fun h => by linarith)
  · exact iff_of_false (by simp) (not_le.mpr h3)
  · exact iff_of_true rfl (not_lt.mp h3)

/-- `moving` is true exactly in the Forward and Backward phases. -/
theorem movingFlag_iff_phase {c : WalkerConfig} (hF : 0 < c.duration)
    (hD : 0 ≤ c.dwell) (e : ℚ) :
    movingFlag c e = true ↔
      (phaseOf c e = .forward ∨ phaseOf c e = .backward) := by
  have h0 := rawOf_nonneg hF hD e
  have hup := rawOf_lt_cycle hF hD e
  rw [cycle_eq] at hup
  rw [movingFlag_true_iff, phaseOf_forward_iff, phaseOf_backward_iff hD]
  constructor
  · rintro ⟨hA, hB⟩
    rcases lt_or_le (rawOf c e) c.duration with h1 | h1
    · exact Or.inl h1
    · have h2 : c.duration + c.dwell ≤ rawOf c e := by
        by_contra hx
        exact hA ⟨h1, by linarith⟩
      have h3 : rawOf c e < c.duration + c.dwell + c.duration := by
        by_contra hx
        exact hB ⟨by linarith, by rw [cycle_eq]; linarith⟩
      exact Or.inr ⟨h2, h3⟩
  · rintro (h | ⟨h1, h2⟩)
    · exact ⟨fun hx => absurd h (not_lt.mpr hx.1), fun hx => absurd h (not_lt.mpr (by linarith [hx.1]))⟩
    · exact ⟨fun hx => absurd hx.2 (not_lt.mpr (by linarith)), fun hx => absurd hx.1 (not_le.mpr h2)⟩

/-! ### Real-time helpers for the dialog window -/

theorem rawOfR_ratCast (c : WalkerConfig) (e : ℚ) :
    rawOfR c (e : ℝ) = ((rawOf c e : ℚ) : ℝ) := by
  unfold rawOfR jsModR rawOf jsMod
  have hdiv : ((e : ℝ) + (c.offset : ℚ)) / ((cycle c : ℚ) : ℝ) =
      (((e + c.offset) / cycle c : ℚ) : ℝ) := by
    push_cast
    ring
  rw [hdiv, Rat.floor_cast]
  push_cast
  ring

/-- Inside the `k`-th cycle window the floor-mod is plain subtraction. -/
theorem rawOfR_window {c : WalkerConfig} (hF : 0 < c.duration) (hD : 0 ≤ c.dwell)
    (k : ℤ) (e : ℝ)
    (h1 : (k : ℝ) * ((cycle c : ℚ) : ℝ) ≤ e + ((c.offset : ℚ) : ℝ))
    (h2 : e + ((c.offset : ℚ) : ℝ) < (k : ℝ) * ((cycle c : ℚ) : ℝ) + ((cycle c : ℚ) : ℝ)) :
    rawOfR c e = e + ((c.offset : ℚ) : ℝ) - (k : ℝ) * ((cycle c : ℚ) : ℝ) := by
  have hcyc : (0 : ℝ) < ((cycle c : ℚ) : ℝ) := by
    exact_mod_cast cycle_pos hF hD
  unfold rawOfR jsModR
  have hfl : ⌊(e + ((c.offset : ℚ) : ℝ)) / ((cycle c : ℚ) : ℝ)⌋ = k := by
    rw [Int.floor_eq_iff]
    constructor
    · exact (le_div_iff₀ hcyc).mpr h1
    · exact (div_lt_iff₀ hcyc).mpr (by linarith)
  rw [hfl]
  ring

/-! ### Claim theorems -/

/-- C2: the phase-clock algorithm.  With `F = duration > 0`, `D = dwell ≥ 0`
and `raw = (elapsed + offset) mod (2F + 2D)`, the frame computation takes
the Forward branch with `localT = raw / F` on `[0, F)`, pins `localT = 1`
on `[F, F + D)` (DwellAtEnd), takes the Backward branch with
`localT = 1 - (raw - F - D) / F` on `[F + D, 2F + D)` — strictly
decreasing as elapsed time advances within that segment — and pins
`localT = 0` on `[2F + D, 2F + 2D)` (DwellAtStart). -/
theorem C2_phase_clock (c : WalkerConfig) (hF : 0 < c.duration)
    (hD : 0 ≤ c.dwell) (ho : 0 ≤ c.offset) :
    (∀ e : ℚ, 0 ≤ e →
      (0 ≤ rawOf c e ∧ rawOf c e < 2 * c.duration + 2 * c.dwell) ∧
      (rawOf c e < c.duration →
        phaseOf c e = .forward ∧ localT c e = rawOf c e / c.duration) ∧
      (c.duration ≤ rawOf c e ∧ rawOf c e < c.duration + c.dwell →
        phaseOf c e = .dwellAtEnd ∧ localT c e = 1) ∧
      (c.duration + c.dwell ≤ rawOf c e ∧ rawOf c e < 2 * c.duration + c.dwell →
        phaseOf c e = .backward ∧
        localT c e = 1 - (rawOf c e - c.duration - c.dwell) / c.duration) ∧
      (2 * c.duration + c.dwell ≤ rawOf c e →
        phaseOf c e = .dwellAtStart ∧ localT c e = 0)) ∧
    (∀ e₁ e₂ : ℚ, 0 ≤ e₁ → e₁ < e₂ →
      rawOf c e₂ = rawOf c e₁ + (e₂ - e₁) →
      c.duration + c.dwell ≤ rawOf c e₁ →
      rawOf c e₂ < 2 * c.duration + c.dwell →
      localT c e₂ < localT c e₁) := by
  constructor
  · intro e _
    refine ⟨⟨rawOf_nonneg hF hD e, ?_⟩, ?_, ?_, ?_, ?_⟩
    · have := rawOf_lt_cycle hF hD e
      rw [cycle_eq] at this
      exact this
    · exact fun h => branch_forward h
    · exact fun h => branch_dwellAtEnd h.1 h.2
    · intro h
      exact branch_backward hD h.1 (by linarith [h.2])
    · intro h
      exact branch_dwellAtStart hF hD (by linarith)
  · intro e₁ e₂ _ hlt hsame h1 h2
    have hr2 : rawOf c e₂ < c.duration + c.dwell + c.duration := by linarith
    have hr1lo : c.duration + c.dwell ≤ rawOf c e₁ := h1
    have hr1hi : rawOf c e₁ < c.duration + c.dwell + c.duration := by
      rw [hsame] at hr2; linarith
    have hb1 := (branch_backward hD hr1lo hr1hi).2
    have hb2 := (branch_backward hD (by rw [hsame]; linarith) hr2).2
    rw [hb1, hb2, hsame]
    have key : (rawOf c e₁ - c.duration - c.dwell) / c.duration <
        (rawOf c e₁ + (e₂ - e₁) - c.duration - c.dwell) / c.duration :=
      (div_lt_div_iff_of_pos_right hF).mpr (by linarith)
    linarith

/-- Witness for C2 at the spec's scenario configuration
(`F = 8`, `D = 3`, `offset = 0`). -/
theorem C2_phase_clock_witness :
    0 < cfg8.duration ∧ 0 ≤ cfg8.dwell ∧ 0 ≤ cfg8.offset ∧
    ((∀ e : ℚ, 0 ≤ e →
      (0 ≤ rawOf cfg8 e ∧ rawOf cfg8 e < 2 * cfg8.duration + 2 * cfg8.dwell) ∧
      (rawOf cfg8 e < cfg8.duration →
        phaseOf cfg8 e = .forward ∧ localT cfg8 e = rawOf cfg8 e / cfg8.duration) ∧
      (cfg8.duration ≤ rawOf cfg8 e ∧ rawOf cfg8 e < cfg8.duration + cfg8.dwell →
        phaseOf cfg8 e = .dwellAtEnd ∧ localT cfg8 e = 1) ∧
      (cfg8.duration + cfg8.dwell ≤ rawOf cfg8 e ∧
          rawOf cfg8 e < 2 * cfg8.duration + cfg8.dwell →
        phaseOf cfg8 e = .backward ∧
        localT cfg8 e = 1 - (rawOf cfg8 e - cfg8.duration - cfg8.dwell) / cfg8.duration) ∧
      (2 * cfg8.duration + cfg8.dwell ≤ rawOf cfg8 e →
        phaseOf cfg8 e = .dwellAtStart ∧ localT cfg8 e = 0)) ∧
    (∀ e₁ e₂ : ℚ, 0 ≤ e₁ → e₁ < e₂ →
      rawOf cfg8 e₂ = rawOf cfg8 e₁ + (e₂ - e₁) →
      cfg8.duration + cfg8.dwell ≤ rawOf cfg8 e₁ →
      rawOf cfg8 e₂ < 2 * cfg8.duration + cfg8.dwell →
      localT cfg8 e₂ < localT cfg8 e₁)) :=
  ⟨by norm_num [cfg8], by norm_num [cfg8], by norm_num [cfg8],
    C2_phase_clock cfg8 (by norm_num [cfg8]) (by norm_num [cfg8]) (by norm_num [cfg8])⟩

/-- C7: zero-dwell safety.  With `dwell = 0` and `duration > 0` the phase
computation never lands in a zero-width dwell segment — `localT` always
comes out of the Forward or Backward branch — and neither divisor of the
per-frame evaluation (`duration` in the two `localT` divisions, `cycle`
in the `%`) is zero. -/
theorem C7_zero_dwell (c : WalkerConfig) (hF : 0 < c.duration)
    (hD : c.dwell = 0) (ho : 0 ≤ c.offset) (e : ℚ) (he : 0 ≤ e) :
    (phaseOf c e = .forward ∨ phaseOf c e = .backward) ∧
    phaseOf c e ≠ .dwellAtEnd ∧ phaseOf c e ≠ .dwellAtStart ∧
    (phaseOf c e = .forward → localT c e = rawOf c e / c.duration) ∧
    (phaseOf c e = .backward →
      localT c e = 1 - (rawOf c e - c.duration - c.dwell) / c.duration) ∧
    c.duration ≠ 0 ∧ cycle c ≠ 0 := by
  have h0 : 0 ≤ rawOf c e := rawOf_nonneg hF (le_of_eq hD.symm) e
  have hup : rawOf c e < cycle c := rawOf_lt_cycle hF (le_of_eq hD.symm) e
  rw [cycle_eq, hD] at hup
  have hD0 : 0 ≤ c.dwell := le_of_eq hD.symm
  have hphase : phaseOf c e = .forward ∨ phaseOf c e = .backward := by
    rcases lt_or_le (rawOf c e) c.duration with h | h
    · exact Or.inl (branch_forward h).1
    · refine Or.inr (branch_backward hD0 ?_ ?_).1
      · rw [hD]; linarith
      · rw [hD]; linarith
  refine ⟨hphase, ?_, ?_, ?_, ?_, hF.ne', (cycle_pos hF (le_of_eq hD.symm)).ne'⟩
  · rcases hphase with h | h <;> rw [h] <;> intro hx <;> exact Phase.noConfusion hx
  · rcases hphase with h | h <;> rw [h] <;> intro hx <;> exact Phase.noConfusion hx
  · intro hfwd
    rcases lt_or_le (rawOf c e) c.duration with h | h
    · exact (branch_forward h).2
    · exfalso
      have := (branch_backward hD0 (by rw [hD]; linarith) (by rw [hD]; linarith)).1
      rw [this] at hfwd
      exact Phase.noConfusion hfwd
  · intro hbwd
    rcases lt_or_le (rawOf c e) c.duration with h | h
    · exfalso
      have := (branch_forward h).1
      rw [this] at hbwd
      exact Phase.noConfusion hbwd
    · exact (branch_backward hD0 (by rw [hD]; linarith) (by rw [hD]; linarith)).2

/-- Witness for C7: configuration `duration = 8`, `dwell = 0`,
`offset = 0`, evaluated at `elapsed = 12` (the Backward leg). -/
theorem C7_zero_dwell_witness :
    0 < (⟨8, 0, 0⟩ : WalkerConfig).duration ∧ (⟨8, 0, 0⟩ : WalkerConfig).dwell = 0 ∧
    0 ≤ (⟨8, 0, 0⟩ : WalkerConfig).offset ∧ 0 ≤ (12 : ℚ) ∧
    ((phaseOf ⟨8, 0, 0⟩ 12 = .forward ∨ phaseOf ⟨8, 0, 0⟩ 12 = .backward) ∧
    phaseOf ⟨8, 0, 0⟩ 12 ≠ .dwellAtEnd ∧ phaseOf ⟨8, 0, 0⟩ 12 ≠ .dwellAtStart ∧
    (phaseOf ⟨8, 0, 0⟩ 12 = .forward →
      localT ⟨8, 0, 0⟩ 12 = rawOf ⟨8, 0, 0⟩ 12 / (⟨8, 0, 0⟩ : WalkerConfig).duration) ∧
    (phaseOf ⟨8, 0, 0⟩ 12 = .backward →
      localT ⟨8, 0, 0⟩ 12 = 1 - (rawOf ⟨8, 0, 0⟩ 12 - (⟨8, 0, 0⟩ : WalkerConfig).duration -
        (⟨8, 0, 0⟩ : WalkerConfig).dwell) / (⟨8, 0, 0⟩ : WalkerConfig).duration) ∧
    (⟨8, 0, 0⟩ : WalkerConfig).duration ≠ 0 ∧ cycle ⟨8, 0, 0⟩ ≠ 0) :=
  ⟨by norm_num, by norm_num, by norm_num, by norm_num,
    C7_zero_dwell ⟨8, 0, 0⟩ (by norm_num) (by norm_num) (by norm_num) 12 (by norm_num)⟩

/-- C9: the curve parameter `tt` always lies in `[0, 1]`, and so does the
lookahead parameter `min(1, tt + 0.002)`; the curve is never queried
outside its domain. -/
theorem C9_param_in_range (c : WalkerConfig) (hF : 0 < c.duration)
    (hD : 0 ≤ c.dwell) (ho : 0 ≤ c.offset) (e : ℚ) (he : 0 ≤ e) :
    0 ≤ localT c e ∧ localT c e ≤ 1 ∧
    0 ≤ lookaheadT c e ∧ lookaheadT c e ≤ 1 := by
  have h0 : 0 ≤ rawOf c e := rawOf_nonneg hF hD e
  have hup : rawOf c e < cycle c := rawOf_lt_cycle hF hD e
  rw [cycle_eq] at hup
  have htt : 0 ≤ localT c e ∧ localT c e ≤ 1 := by
    rcases lt_or_le (rawOf c e) c.duration with h1 | h1
    · rw [(branch_forward h1).2]
      constructor
      · exact div_nonneg h0 hF.le
      · exact le_of_lt ((div_lt_one hF).mpr h1)
    · rcases lt_or_le (rawOf c e) (c.duration + c.dwell) with h2 | h2
      · rw [(branch_dwellAtEnd h1 h2).2]; norm_num
      · rcases lt_or_le (rawOf c e) (c.duration + c.dwell + c.duration) with h3 | h3
        · rw [(branch_backward hD h2 h3).2]
          have hq0 : 0 ≤ (rawOf c e - c.duration - c.dwell) / c.duration :=
            div_nonneg (by linarith) hF.le
          have hq1 : (rawOf c e - c.duration - c.dwell) / c.duration < 1 :=
            (div_lt_one hF).mpr (by linarith)
          constructor <;> linarith
        · rw [(branch_dwellAtStart hF hD h3).2]; norm_num
  refine ⟨htt.1, htt.2, ?_, ?_⟩
  · unfold lookaheadT
    apply le_min
    · norm_num
    · linarith [htt.1]
  · exact min_le_left 1 _

/-- C1: determinism/purity.  The per-frame state — phase, `tt`
(`localT`), position, the `lookAt` target that fixes the heading, the
bob (`posY`) and roll (`rotZ`), and the dialog's visibility — after any
sequence of frames is a pure function of the last frame's elapsed time,
the offset and the configuration: any two call histories ending at the
same clock value leave identical state, from any starting state, so
nothing is accumulated frame to frame. -/
theorem C1_determinism (pts : List Vec3) (tension : ℝ) (c : WalkerConfig)
    (s₁ s₂ : FrameState) (history₁ history₂ : List ℚ) (e : ℚ) :
    List.foldl (frameStep pts tension c) s₁ (history₁ ++ [e]) =
      frameOutput pts tension c e ∧
    List.foldl (frameStep pts tension c) s₁ (history₁ ++ [e]) =
      List.foldl (frameStep pts tension c) s₂ (history₂ ++ [e]) := by
  have h : ∀ (s : FrameState) (hist : List ℚ),
      List.foldl (frameStep pts tension c) s (hist ++ [e]) =
        frameOutput pts tension c e := by
    intro s hist
    rw [List.foldl_append]
    rfl
  exact ⟨h s₁ history₁, (h s₁ history₁).trans (h s₂ history₂).symm⟩

/-- C4: the source computes the heading lookahead as
`min(1, tt + 0.002)` in every phase.  At `elapsed = 15` of the scenario
configuration the phase is Backward with `localT = 1/2`, yet the
lookahead parameter is `localT + 0.002` (the path-forward direction),
not the `localT - 0.002` the claim requires for Backward motion. -/
theorem C4_lookahead_eval :
    phaseOf cfg8 15 = .backward ∧ localT cfg8 15 = 1/2 ∧
    lookaheadT cfg8 15 = localT cfg8 15 + 1/500 ∧
    lookaheadT cfg8 15 ≠ localT cfg8 15 - 1/500 := by
  refine ⟨?_, ?_, ?_, ?_⟩
  · norm_num [phaseOf, rawOf, jsMod, cycle, cfg8]
  · norm_num [localT, rawOf, jsMod, cycle, cfg8]
  · norm_num [lookaheadT, localT, rawOf, jsMod, cycle, cfg8, min_def]
  · norm_num [lookaheadT, localT, rawOf, jsMod, cycle, cfg8, min_def]

/-- C5 counterexample: building a walker from a single waypoint does not
fail with a `ConfigurationError` — construction succeeds and silently
keeps the degenerate one-point path. -/
theorem C5_counterexample :
    buildWalker [⟨0, 0, 0⟩] 10 0 3 =
      Except.ok ⟨[⟨0, 0, 0⟩], false, "catmullrom", 0.15, some ⟨0, 0, 0⟩⟩ := rfl

/-- C5 (amended): construction performs no validation at all.  For every
waypoint list (including fewer than 2 waypoints) and every
`duration`/`offset`/`dwell` (including non-positive and negative values)
it returns `ok` with the stored curve arguments and
`points[points.length - 1]` as the dialog anchor; no error of any kind is
ever raised at construction time. -/
theorem C5_no_validation (points : List Vec3) (duration offset dwell : ℚ) :
    buildWalker points duration offset dwell =
      Except.ok ⟨points, false, "catmullrom", 0.15, points.getLast?⟩ := rfl

/-- C6 counterexample: with `duration = 2`, `dwell = 0`, `offset = 0` at
`elapsed = 1/2` the walker is moving (`localT = 1/4`) and the source's
vertical offset is `sin((1/4)·6π)·0.02 = sin(3π/2)·0.02 = -0.02`, while
the claim's formula with the source's amplitude `0.02` and frequency `3`
gives `0.02·sin(3·2π·(1/2)) = 0.02·sin(3π) = 0`. -/
theorem C6_counterexample :
    movingFlag cfg6 (1/2) = true ∧
    verticalOffset cfg6 (1/2) = -0.02 ∧
    verticalOffsetSpec 0.02 3 cfg6 (1/2) = 0 ∧
    (-0.02 : ℝ) ≠ 0 := by
  have hmov : movingFlag cfg6 (1/2) = true := by
    norm_num [movingFlag, rawOf, jsMod, cycle, cfg6]
  have hT : localT cfg6 (1/2) + cfg6.offset = 1/4 := by
    norm_num [localT, rawOf, jsMod, cycle, cfg6]
  refine ⟨hmov, ?_, ?_, by norm_num⟩
  · unfold verticalOffset stepValue
    rw [hmov]
    simp only [if_true]
    rw [hT]
    rw [show (((1/4 : ℚ) : ℝ)) * Real.pi * 6 = Real.pi / 2 + Real.pi by push_cast; ring]
    rw [Real.sin_add_pi, Real.sin_pi_div_two]
    norm_num
  · unfold verticalOffsetSpec
    rw [show ((1/2 : ℚ) : ℝ) + ((cfg6.offset : ℚ) : ℝ) = 1/2 from by norm_num [cfg6]]
    rw [show (3 : ℝ) * (2 * Real.pi) * (1/2) = Real.pi + 2 * Real.pi from by ring]
    rw [Real.sin_add_two_pi, Real.sin_pi]
    norm_num

/-- C6 (amended): while the walker is moving (phase Forward or Backward)
the vertical offset is `sin((localT + offset)·6π)·0.02` and the roll is
`sin((localT + offset)·3π)·0.05` — the sinusoid's argument is the curve
parameter `localT` plus the offset, not elapsed time — and during either
dwell phase both are exactly `0`. -/
theorem C6_secondary_motion (c : WalkerConfig) (hF : 0 < c.duration)
    (hD : 0 ≤ c.dwell) (ho : 0 ≤ c.offset) (e : ℚ) (he : 0 ≤ e) :
    (movingFlag c e = true ↔ (phaseOf c e = .forward ∨ phaseOf c e = .backward)) ∧
    (movingFlag c e = true →
      verticalOffset c e =
        Real.sin (((localT c e + c.offset : ℚ) : ℝ) * Real.pi * 6) * 0.02 ∧
      roll c e =
        Real.sin (((localT c e + c.offset : ℚ) : ℝ) * Real.pi * 3) * 0.05) ∧
    (movingFlag c e = false → verticalOffset c e = 0 ∧ roll c e = 0) := by
  refine ⟨movingFlag_iff_phase hF hD e, ?_, ?_⟩
  · intro hmov
    constructor
    · unfold verticalOffset stepValue
      rw [hmov]
      simp
    · unfold roll
      rw [hmov]
      simp
  · intro hmov
    constructor
    · unfold verticalOffset
      rw [hmov]
      simp
    · unfold roll
      rw [hmov]
      simp

/-- Witness for the amended C6 at the scenario configuration,
`elapsed = 4` (Forward phase, moving). -/
theorem C6_secondary_motion_witness :
    0 < cfg8.duration ∧ 0 ≤ cfg8.dwell ∧ 0 ≤ cfg8.offset ∧ 0 ≤ (4 : ℚ) ∧
    ((movingFlag cfg8 4 = true ↔ (phaseOf cfg8 4 = .forward ∨ phaseOf cfg8 4 = .backward)) ∧
    (movingFlag cfg8 4 = true →
      verticalOffset cfg8 4 =
        Real.sin (((localT cfg8 4 + cfg8.offset : ℚ) : ℝ) * Real.pi * 6) * 0.02 ∧
      roll cfg8 4 =
        Real.sin (((localT cfg8 4 + cfg8.offset : ℚ) : ℝ) * Real.pi * 3) * 0.05) ∧
    (movingFlag cfg8 4 = false → verticalOffset cfg8 4 = 0 ∧ roll cfg8 4 = 0)) :=
  ⟨by norm_num [cfg8], by norm_num [cfg8], by norm_num [cfg8], by norm_num,
    C6_secondary_motion cfg8 (by norm_num [cfg8]) (by norm_num [cfg8])
      (by norm_num [cfg8]) 4 (by norm_num)⟩

/-- C3: the dialog gate.  `showDialog` is true exactly when the phase is
DwellAtEnd, i.e. when `raw ∈ [F, F + D)`; it is false in both moving
phases and during DwellAtStart.  Over real time, within every cycle
window `[k·cycle - offset, (k+1)·cycle - offset)` the visible instants
form exactly the interval `[window start + F, window start + F + D)`,
whose Lebesgue measure is `dwell` — visible for exactly `dwellDuration`
seconds per cycle, hidden for the remainder. -/
theorem C3_dialog_gate (c : WalkerConfig) (hF : 0 < c.duration)
    (hD : 0 ≤ c.dwell) (ho : 0 ≤ c.offset) :
    (∀ e : ℚ, 0 ≤ e → (showDialog c e = true ↔ phaseOf c e = .dwellAtEnd)) ∧
    (∀ e : ℚ, 0 ≤ e → (showDialog c e = true ↔ (e : ℝ) ∈ visibleSet c)) ∧
    (∀ k : ℕ,
      visibleSet c ∩
        Set.Ico ((k : ℝ) * ((cycle c : ℚ) : ℝ) - ((c.offset : ℚ) : ℝ))
          ((k : ℝ) * ((cycle c : ℚ) : ℝ) - ((c.offset : ℚ) : ℝ) + ((cycle c : ℚ) : ℝ)) =
        Set.Ico ((k : ℝ) * ((cycle c : ℚ) : ℝ) - ((c.offset : ℚ) : ℝ) + ((c.duration : ℚ) : ℝ))
          ((k : ℝ) * ((cycle c : ℚ) : ℝ) - ((c.offset : ℚ) : ℝ) + ((c.duration : ℚ) : ℝ) +
            ((c.dwell : ℚ) : ℝ)) ∧
      MeasureTheory.volume
        (visibleSet c ∩
          Set.Ico ((k : ℝ) * ((cycle c : ℚ) : ℝ) - ((c.offset : ℚ) : ℝ))
            ((k : ℝ) * ((cycle c : ℚ) : ℝ) - ((c.offset : ℚ) : ℝ) + ((cycle c : ℚ) : ℝ))) =
        ENNReal.ofReal ((c.dwell : ℚ) : ℝ)) := by
  have hFr : (0 : ℝ) < ((c.duration : ℚ) : ℝ) := by exact_mod_cast hF
  have hDr : (0 : ℝ) ≤ ((c.dwell : ℚ) : ℝ) := by exact_mod_cast hD
  have hcycr : ((cycle c : ℚ) : ℝ) =
      2 * ((c.duration : ℚ) : ℝ) + 2 * ((c.dwell : ℚ) : ℝ) := by
    rw [cycle_eq c]
    push_cast
    ring
  have hwindow : ∀ k : ℕ,
      visibleSet c ∩
        Set.Ico ((k : ℝ) * ((cycle c : ℚ) : ℝ) - ((c.offset : ℚ) : ℝ))
          ((k : ℝ) * ((cycle c : ℚ) : ℝ) - ((c.offset : ℚ) : ℝ) + ((cycle c : ℚ) : ℝ)) =
        Set.Ico ((k : ℝ) * ((cycle c : ℚ) : ℝ) - ((c.offset : ℚ) : ℝ) + ((c.duration : ℚ) : ℝ))
          ((k : ℝ) * ((cycle c : ℚ) : ℝ) - ((c.offset : ℚ) : ℝ) + ((c.duration : ℚ) : ℝ) +
            ((c.dwell : ℚ) : ℝ)) := by
    intro k
    ext e
    simp only [Set.mem_inter_iff, Set.mem_Ico, Set.mem_setOf_eq, visibleSet]
    constructor
    · rintro ⟨⟨hv1, hv2⟩, he1, he2⟩
      have hraw := rawOfR_window hF hD (k : ℤ) e
        (by push_cast; linarith) (by push_cast; linarith)
      push_cast at hraw
      rw [hraw] at hv1 hv2
      exact ⟨by linarith, by linarith⟩
    · rintro ⟨h1, h2⟩
      have hw1 : ((k : ℤ) : ℝ) * ((cycle c : ℚ) : ℝ) ≤ e + ((c.offset : ℚ) : ℝ) := by
        push_cast
        linarith
      have hw2 : e + ((c.offset : ℚ) : ℝ) <
          ((k : ℤ) : ℝ) * ((cycle c : ℚ) : ℝ) + ((cycle c : ℚ) : ℝ) := by
        push_cast
        rw [hcycr] at h2 ⊢
        linarith
      have hraw := rawOfR_window hF hD (k : ℤ) e hw1 hw2
      push_cast at hraw
      refine ⟨⟨?_, ?_⟩, ?_, ?_⟩
      · rw [hraw]; linarith
      · rw [hraw]; linarith
      · linarith
      · linarith [hcycr]
  refine ⟨?_, ?_, ?_⟩
  · intro e _
    rw [showDialog_true_iff, phaseOf_dwellAtEnd_iff]
  · intro e _
    rw [showDialog_true_iff]
    unfold visibleSet
    simp only [Set.mem_setOf_eq]
    rw [rawOfR_ratCast]
    constructor
    · rintro ⟨h1, h2⟩
      exact ⟨by exact_mod_cast h1, by exact_mod_cast h2⟩
    · rintro ⟨h1, h2⟩
      exact ⟨by exact_mod_cast h1, by exact_mod_cast h2⟩
  · intro k
    refine ⟨hwindow k, ?_⟩
    rw [hwindow k, Real.volume_Ico]
    congr 1
    ring

/-- Witness for C3 at the scenario configuration. -/
theorem C3_dialog_gate_witness :
    0 < cfg8.duration ∧ 0 ≤ cfg8.dwell ∧ 0 ≤ cfg8.offset ∧
    ((∀ e : ℚ, 0 ≤ e → (showDialog cfg8 e = true ↔ phaseOf cfg8 e = .dwellAtEnd)) ∧
    (∀ e : ℚ, 0 ≤ e → (showDialog cfg8 e = true ↔ (e : ℝ) ∈ visibleSet cfg8)) ∧
    (∀ k : ℕ,
      visibleSet cfg8 ∩
        Set.Ico ((k : ℝ) * ((cycle cfg8 : ℚ) : ℝ) - ((cfg8.offset : ℚ) : ℝ))
          ((k : ℝ) * ((cycle cfg8 : ℚ) : ℝ) - ((cfg8.offset : ℚ) : ℝ) + ((cycle cfg8 : ℚ) : ℝ)) =
        Set.Ico ((k : ℝ) * ((cycle cfg8 : ℚ) : ℝ) - ((cfg8.offset : ℚ) : ℝ) + ((cfg8.duration : ℚ) : ℝ))
          ((k : ℝ) * ((cycle cfg8 : ℚ) : ℝ) - ((cfg8.offset : ℚ) : ℝ) + ((cfg8.duration : ℚ) : ℝ) +
            ((cfg8.dwell : ℚ) : ℝ)) ∧
      MeasureTheory.volume
        (visibleSet cfg8 ∩
          Set.Ico ((k : ℝ) * ((cycle cfg8 : ℚ) : ℝ) - ((cfg8.offset : ℚ) : ℝ))
            ((k : ℝ) * ((cycle cfg8 : ℚ) : ℝ) - ((cfg8.offset : ℚ) : ℝ) + ((cycle cfg8 : ℚ) : ℝ))) =
        ENNReal.ofReal ((cfg8.dwell : ℚ) : ℝ))) :=
  ⟨by norm_num [cfg8], by norm_num [cfg8], by norm_num [cfg8],
    C3_dialog_gate cfg8 (by norm_num [cfg8]) (by norm_num [cfg8]) (by norm_num [cfg8])⟩

/-- C10: dialog/motion synchronization.  Whenever the dialog is visible
the curve parameter is exactly 1 (the walker stands at the end of the
path), the `moving` flag is false, and the bob and roll contributions are
exactly zero; and visibility coincides with the DwellAtEnd phase at every
instant since both are derived from the same `raw`. -/
theorem C10_dialog_motion_sync (c : WalkerConfig) (hF : 0 < c.duration)
    (hD : 0 ≤ c.dwell) (ho : 0 ≤ c.offset) (e : ℚ) (he : 0 ≤ e) :
    (showDialog c e = true ↔ phaseOf c e = .dwellAtEnd) ∧
    (showDialog c e = true →
      localT c e = 1 ∧ movingFlag c e = false ∧
      verticalOffset c e = 0 ∧ roll c e = 0) := by
  constructor
  · rw [showDialog_true_iff, phaseOf_dwellAtEnd_iff]
  · intro hvis
    rw [showDialog_true_iff] at hvis
    have hT : localT c e = 1 := (branch_dwellAtEnd hvis.1 hvis.2).2
    have hmov : movingFlag c e = false := by
      apply Bool.eq_false_iff.mpr
      intro htrue
      exact ((movingFlag_true_iff c e).mp htrue).1 hvis
    refine ⟨hT, hmov, ?_, ?_⟩
    · unfold verticalOffset
      rw [hmov]
      simp
    · unfold roll
      rw [hmov]
      simp

/-- Witness for C10 at the scenario configuration, `elapsed = 9`
(inside the end dwell, dialog visible). -/
theorem C10_dialog_motion_sync_witness :
    0 < cfg8.duration ∧ 0 ≤ cfg8.dwell ∧ 0 ≤ cfg8.offset ∧ 0 ≤ (9 : ℚ) ∧
    ((showDialog cfg8 9 = true ↔ phaseOf cfg8 9 = .dwellAtEnd) ∧
    (showDialog cfg8 9 = true →
      localT cfg8 9 = 1 ∧ movingFlag cfg8 9 = false ∧
      verticalOffset cfg8 9 = 0 ∧ roll cfg8 9 = 0)) :=
  ⟨by norm_num [cfg8], by norm_num [cfg8], by norm_num [cfg8], by norm_num,
    C10_dialog_motion_sync cfg8 (by norm_num [cfg8]) (by norm_num [cfg8])
      (by norm_num [cfg8]) 9 (by norm_num)⟩

/-- Witness for C9 at the scenario configuration and `elapsed = 15`. -/
theorem C9_param_in_range_witness :
    0 < cfg8.duration ∧ 0 ≤ cfg8.dwell ∧ 0 ≤ cfg8.offset ∧ 0 ≤ (15 : ℚ) ∧
    (0 ≤ localT cfg8 15 ∧ localT cfg8 15 ≤ 1 ∧
     0 ≤ lookaheadT cfg8 15 ∧ lookaheadT cfg8 15 ≤ 1) :=
  ⟨by norm_num [cfg8], by norm_num [cfg8], by norm_num [cfg8], by norm_num,
    C9_param_in_range cfg8 (by norm_num [cfg8]) (by norm_num [cfg8])
      (by norm_num [cfg8]) 15 (by norm_num)⟩

/-! ### Scenario curve evaluation (spec §8): helper lemmas -/

/-- On `[0, 1)` the scenario curve is the single Catmull-Rom segment
between `(0,0,0)` and `(5,0,0)` with phantom ends `(-5,0,0)`, `(10,0,0)`:
its x-coordinate is `scenarioPoly`. -/
theorem getPoint_pts2 {t : ℝ} (h0 : 0 ≤ t) (h1 : t < 1) :
    getPoint pts2 0.15 t = ⟨scenarioPoly t, 0, 0⟩ := by
  have hfl : ⌊t⌋ = 0 := Int.floor_eq_zero_iff.mpr ⟨h0, h1⟩
  simp only [getPoint, pts2, List.length_cons, List.length_nil]
  norm_num [hfl]
  norm_num [nth, pts2, initCatmullRom, CubicPoly.calcAt, Vec3.sub, Vec3.add, scenarioPoly]
  ring

/-- At `t = 1` the `weight == 0 && intP === l - 1` special case reuses the
segment with `weight = 1` and lands exactly on the last waypoint. -/
theorem getPoint_pts2_one : getPoint pts2 0.15 1 = ⟨5, 0, 0⟩ := by
  simp only [getPoint, pts2, List.length_cons, List.length_nil]
  norm_num [nth, initCatmullRom, CubicPoly.calcAt, Vec3.sub, Vec3.add]

/-- `scenarioPoly` is monotone on `[0, 1]` (the sampled speed
`3/2 + 21w - 21w²` is positive there). -/
theorem scenarioPoly_mono {a b : ℝ} (h0 : 0 ≤ a) (hab : a ≤ b) (hb : b ≤ 1) :
    scenarioPoly a ≤ scenarioPoly b := by
  have hb0 : 0 ≤ b := le_trans h0 hab
  have ha1 : a ≤ 1 := le_trans hab hb
  unfold scenarioPoly
  nlinarith [mul_nonneg (mul_nonneg (sub_nonneg.mpr hab) h0) (sub_nonneg.mpr ha1),
             mul_nonneg (mul_nonneg (sub_nonneg.mpr hab) hb0) (sub_nonneg.mpr hb),
             mul_nonneg (mul_nonneg (sub_nonneg.mpr hab) h0) (sub_nonneg.mpr hb),
             mul_nonneg (mul_nonneg (sub_nonneg.mpr hab) hb0) (sub_nonneg.mpr ha1),
             sub_nonneg.mpr hab]

theorem sample_pts2 (k : ℕ) (hk : k ≤ 200) :
    getPoint pts2 0.15 ((k : ℝ) / 200) = ⟨scenarioPoly ((k : ℝ) / 200), 0, 0⟩ := by
  rcases hk.lt_or_eq with h | h
  · refine getPoint_pts2 (by positivity) ?_
    rw [div_lt_one (by norm_num)]
    exact_mod_cast h
  · rw [h]
    rw [show (((200 : ℕ) : ℝ)) / 200 = 1 from by norm_num]
    rw [getPoint_pts2_one]
    norm_num [scenarioPoly]

/-- The scenario's samples lie on the x-axis in increasing order, so the
cumulative chord table telescopes to `scenarioPoly` itself. -/
theorem arcLengths_pts2 (k : ℕ) (hk : k ≤ 200) :
    arcLengths pts2 0.15 k = scenarioPoly ((k : ℝ) / 200) := by
  induction k with
  | zero => norm_num [arcLengths, scenarioPoly]
  | succ n ih =>
    have hn : n ≤ 200 := le_trans (Nat.le_succ n) hk
    have hcast : ((n : ℝ) + 1) / 200 = (((n + 1 : ℕ) : ℝ)) / 200 := by push_cast; ring
    have hb1 : (((n + 1 : ℕ) : ℝ)) / 200 ≤ 1 := by
      rw [div_le_one (by norm_num)]
      exact_mod_cast hk
    have hmono : scenarioPoly ((n : ℝ) / 200) ≤ scenarioPoly ((((n + 1 : ℕ) : ℝ)) / 200) := by
      refine scenarioPoly_mono (by positivity) ?_ hb1
      apply div_le_div_of_nonneg_right ?_ (by norm_num)
      push_cast
      linarith
    simp only [arcLengths]
    rw [ih hn, hcast, sample_pts2 n hn, sample_pts2 (n + 1) hk]
    unfold Vec3.distanceTo
    norm_num
    rw [← hcast] at hmono
    rw [Real.sqrt_sq (sub_nonneg.mpr hmono)]
    ring

theorem searchLoop_succ (arc : ℕ → ℝ) (target : ℝ) (fuel : ℕ) (low high : ℤ) :
    searchLoop arc target (fuel + 1) low high =
      if low ≤ high then
        if arc (⌊(low : ℝ) + ((high : ℝ) - (low : ℝ)) / 2⌋).toNat - target < 0 then
          searchLoop arc target fuel (⌊(low : ℝ) + ((high : ℝ) - (low : ℝ)) / 2⌋ + 1) high
        else if 0 < arc (⌊(low : ℝ) + ((high : ℝ) - (low : ℝ)) / 2⌋).toNat - target then
          searchLoop arc target fuel low (⌊(low : ℝ) + ((high : ℝ) - (low : ℝ)) / 2⌋ - 1)
        else ⌊(low : ℝ) + ((high : ℝ) - (low : ℝ)) / 2⌋
      else high := rfl

theorem searchLoop_lt (arc : ℕ → ℝ) (target : ℝ) (fuel : ℕ) (low high i : ℤ)
    (hlh : low ≤ high) (hi : ⌊(low : ℝ) + ((high : ℝ) - (low : ℝ)) / 2⌋ = i)
    (hcmp : arc i.toNat - target < 0) :
    searchLoop arc target (fuel + 1) low high = searchLoop arc target fuel (i + 1) high := by
  rw [searchLoop_succ, if_pos hlh, hi, if_pos hcmp]

theorem searchLoop_gt (arc : ℕ → ℝ) (target : ℝ) (fuel : ℕ) (low high i : ℤ)
    (hlh : low ≤ high) (hi : ⌊(low : ℝ) + ((high : ℝ) - (low : ℝ)) / 2⌋ = i)
    (hcmp : 0 < arc i.toNat - target) :
    searchLoop arc target (fuel + 1) low high = searchLoop arc target fuel low (i - 1) := by
  rw [searchLoop_succ, if_pos hlh, hi, if_neg (by linarith), if_pos hcmp]

theorem searchLoop_exact (arc : ℕ → ℝ) (target : ℝ) (fuel : ℕ) (low high i : ℤ)
    (hlh : low ≤ high) (hi : ⌊(low : ℝ) + ((high : ℝ) - (low : ℝ)) / 2⌋ = i)
    (hcmp : arc i.toNat = target) :
    searchLoop arc target (fuel + 1) low high = i := by
  rw [searchLoop_succ, if_pos hlh, hi, if_neg (by rw [hcmp]; simp), if_neg (by rw [hcmp]; simp)]

theorem searchLoop_half :
    searchLoop (arcLengths pts2 0.15) (5/2) 201 0 200 = 100 := by
  have harc : arcLengths pts2 0.15 100 = 5/2 := by
    rw [arcLengths_pts2 100 (by norm_num)]
    norm_num [scenarioPoly]
  rw [show (201:ℕ) = 200 + 1 from rfl, searchLoop_succ]
  rw [if_pos (by norm_num : (0:ℤ) ≤ 200)]
  rw [show ⌊(((0:ℤ)) : ℝ) + ((((200:ℤ)) : ℝ) - (((0:ℤ)) : ℝ)) / 2⌋ = (100:ℤ) from by norm_num]
  rw [show ((100:ℤ)).toNat = (100:ℕ) from rfl]
  rw [harc]
  norm_num

theorem searchLoop_one :
    searchLoop (arcLengths pts2 0.15) 5 201 0 200 = 200 := by
  rw [show (201:ℕ) = 200 + 1 from rfl,
      searchLoop_lt (arcLengths pts2 0.15) 5 200 0 200 100 (by norm_num) (by norm_num)
        (by rw [show ((100:ℤ)).toNat = (100:ℕ) from rfl, arcLengths_pts2 100 (by norm_num)]
            norm_num [scenarioPoly])]
  rw [show (200:ℕ) = 199 + 1 from rfl,
      searchLoop_lt (arcLengths pts2 0.15) 5 199 (100+1) 200 150 (by norm_num) (by norm_num)
        (by rw [show ((150:ℤ)).toNat = (150:ℕ) from rfl, arcLengths_pts2 150 (by norm_num)]
            norm_num [scenarioPoly])]
  rw [show (199:ℕ) = 198 + 1 from rfl,
      searchLoop_lt (arcLengths pts2 0.15) 5 198 (150+1) 200 175 (by norm_num) (by norm_num)
        (by rw [show ((175:ℤ)).toNat = (175:ℕ) from rfl, arcLengths_pts2 175 (by norm_num)]
            norm_num [scenarioPoly])]
  rw [show (198:ℕ) = 197 + 1 from rfl,
      searchLoop_lt (arcLengths pts2 0.15) 5 197 (175+1) 200 188 (by norm_num) (by norm_num)
        (by rw [show ((188:ℤ)).toNat = (188:ℕ) from rfl, arcLengths_pts2 188 (by norm_num)]
            norm_num [scenarioPoly])]
  rw [show (197:ℕ) = 196 + 1 from rfl,
      searchLoop_lt (arcLengths pts2 0.15) 5 196 (188+1) 200 194 (by norm_num) (by norm_num)
        (by rw [show ((194:ℤ)).toNat = (194:ℕ) from rfl, arcLengths_pts2 194 (by norm_num)]
            norm_num [scenarioPoly])]
  rw [show (196:ℕ) = 195 + 1 from rfl,
      searchLoop_lt (arcLengths pts2 0.15) 5 195 (194+1) 200 197 (by norm_num) (by norm_num)
        (by rw [show ((197:ℤ)).toNat = (197:ℕ) from rfl, arcLengths_pts2 197 (by norm_num)]
            norm_num [scenarioPoly])]
  rw [show (195:ℕ) = 194 + 1 from rfl,
      searchLoop_lt (arcLengths pts2 0.15) 5 194 (197+1) 200 199 (by norm_num) (by norm_num)
        (by rw [show ((199:ℤ)).toNat = (199:ℕ) from rfl, arcLengths_pts2 199 (by norm_num)]
            norm_num [scenarioPoly])]
  rw [show (194:ℕ) = 193 + 1 from rfl,
      searchLoop_exact (arcLengths pts2 0.15) 5 193 (199+1) 200 200 (by norm_num) (by norm_num)
        (by rw [show ((200:ℤ)).toNat = (200:ℕ) from rfl, arcLengths_pts2 200 (by norm_num)]
            norm_num [scenarioPoly])]

theorem searchLoop_zero :
    searchLoop (arcLengths pts2 0.15) 0 201 0 200 = 0 := by
  rw [show (201:ℕ) = 200 + 1 from rfl,
      searchLoop_gt (arcLengths pts2 0.15) 0 200 0 200 100 (by norm_num) (by norm_num)
        (by rw [show ((100:ℤ)).toNat = (100:ℕ) from rfl, arcLengths_pts2 100 (by norm_num)]
            norm_num [scenarioPoly])]
  rw [show (200:ℕ) = 199 + 1 from rfl,
      searchLoop_gt (arcLengths pts2 0.15) 0 199 0 (100-1) 49 (by norm_num) (by norm_num)
        (by rw [show ((49:ℤ)).toNat = (49:ℕ) from rfl, arcLengths_pts2 49 (by norm_num)]
            norm_num [scenarioPoly])]
  rw [show (199:ℕ) = 198 + 1 from rfl,
      searchLoop_gt (arcLengths pts2 0.15) 0 198 0 (49-1) 24 (by norm_num) (by norm_num)
        (by rw [show ((24:ℤ)).toNat = (24:ℕ) from rfl, arcLengths_pts2 24 (by norm_num)]
            norm_num [scenarioPoly])]
  rw [show (198:ℕ) = 197 + 1 from rfl,
      searchLoop_gt (arcLengths pts2 0.15) 0 197 0 (24-1) 11 (by norm_num) (by norm_num)
        (by rw [show ((11:ℤ)).toNat = (11:ℕ) from rfl, arcLengths_pts2 11 (by norm_num)]
            norm_num [scenarioPoly])]
  rw [show (197:ℕ) = 196 + 1 from rfl,
      searchLoop_gt (arcLengths pts2 0.15) 0 196 0 (11-1) 5 (by norm_num) (by norm_num)
        (by rw [show ((5:ℤ)).toNat = (5:ℕ) from rfl, arcLengths_pts2 5 (by norm_num)]
            norm_num [scenarioPoly])]
  rw [show (196:ℕ) = 195 + 1 from rfl,
      searchLoop_gt (arcLengths pts2 0.15) 0 195 0 (5-1) 2 (by norm_num) (by norm_num)
        (by rw [show ((2:ℤ)).toNat = (2:ℕ) from rfl, arcLengths_pts2 2 (by norm_num)]
            norm_num [scenarioPoly])]
  rw [show (195:ℕ) = 194 + 1 from rfl,
      searchLoop_exact (arcLengths pts2 0.15) 0 194 0 (2-1) 0 (by norm_num) (by norm_num)
        (by rw [show ((0:ℤ)).toNat = (0:ℕ) from rfl]
            simp [arcLengths])]

theorem total_pts2 : arcLengths pts2 0.15 200 = 5 := by
  rw [arcLengths_pts2 200 le_rfl]
  norm_num [scenarioPoly]

theorem utoT_half : getUtoTmapping pts2 0.15 (1/2) = 1/2 := by
  simp only [getUtoTmapping]
  rw [total_pts2]
  rw [show (1/2 : ℝ) * 5 = 5/2 from by norm_num]
  rw [searchLoop_half]
  rw [show ((100:ℤ)).toNat = (100:ℕ) from rfl]
  rw [arcLengths_pts2 100 (by norm_num)]
  rw [if_pos (by norm_num [scenarioPoly])]
  norm_num

theorem utoT_one : getUtoTmapping pts2 0.15 1 = 1 := by
  simp only [getUtoTmapping]
  rw [total_pts2]
  rw [show (1 : ℝ) * 5 = 5 from by norm_num]
  rw [searchLoop_one]
  rw [show ((200:ℤ)).toNat = (200:ℕ) from rfl]
  rw [arcLengths_pts2 200 le_rfl]
  rw [if_pos (by norm_num [scenarioPoly])]
  norm_num

theorem utoT_zero : getUtoTmapping pts2 0.15 0 = 0 := by
  simp only [getUtoTmapping]
  rw [total_pts2]
  rw [show (0 : ℝ) * 5 = 0 from by norm_num]
  rw [searchLoop_zero]
  rw [show ((0:ℤ)).toNat = (0:ℕ) from rfl]
  rw [if_pos (by simp [arcLengths])]
  norm_num

theorem getPointAt_pts2_half : getPointAt pts2 0.15 (1/2) = ⟨5/2, 0, 0⟩ := by
  unfold getPointAt
  rw [utoT_half, getPoint_pts2 (by norm_num) (by norm_num)]
  norm_num [scenarioPoly]

theorem getPointAt_pts2_one : getPointAt pts2 0.15 1 = ⟨5, 0, 0⟩ := by
  unfold getPointAt
  rw [utoT_one, getPoint_pts2_one]

theorem getPointAt_pts2_zero : getPointAt pts2 0.15 0 = ⟨0, 0, 0⟩ := by
  unfold getPointAt
  rw [utoT_zero, getPoint_pts2 (by norm_num) (by norm_num)]
  norm_num [scenarioPoly]

/-- C8 (amended): the concrete scenario with `waypoints = [(0,0,0), (5,0,0)]`,
`forwardDuration = 8`, `dwellDuration = 3`, `offset = 0`.  At `elapsed = 4`:
Forward, `localT = 1/2`, position `(5/2, 0, 0)` (exactly, in the sampled
arc-length model).  At `elapsed = 9`: DwellAtEnd, position `(5,0,0)`,
dialog visible.  At `elapsed = 15` — the Backward midpoint, which the
claim misplaces at 11.5 — Backward, `localT = 1/2`, position `(5/2,0,0)`,
dialog hidden.  At `elapsed = 22` the cycle has restarted: `raw = 0`,
position `(0,0,0)`. -/
theorem C8_scenario :
    (phaseOf cfg8 4 = .forward ∧ localT cfg8 4 = 1/2 ∧
      getPointAt pts2 0.15 ((localT cfg8 4 : ℚ) : ℝ) = ⟨5/2, 0, 0⟩) ∧
    (phaseOf cfg8 9 = .dwellAtEnd ∧ localT cfg8 9 = 1 ∧
      getPointAt pts2 0.15 ((localT cfg8 9 : ℚ) : ℝ) = ⟨5, 0, 0⟩ ∧
      showDialog cfg8 9 = true) ∧
    (phaseOf cfg8 15 = .backward ∧ localT cfg8 15 = 1/2 ∧
      getPointAt pts2 0.15 ((localT cfg8 15 : ℚ) : ℝ) = ⟨5/2, 0, 0⟩ ∧
      showDialog cfg8 15 = false) ∧
    (rawOf cfg8 22 = 0 ∧ phaseOf cfg8 22 = .forward ∧ localT cfg8 22 = 0 ∧
      getPointAt pts2 0.15 ((localT cfg8 22 : ℚ) : ℝ) = ⟨0, 0, 0⟩) := by
  have h4 : localT cfg8 4 = 1/2 := by norm_num [localT, rawOf, jsMod, cycle, cfg8]
  have h9 : localT cfg8 9 = 1 := by norm_num [localT, rawOf, jsMod, cycle, cfg8]
  have h15 : localT cfg8 15 = 1/2 := by norm_num [localT, rawOf, jsMod, cycle, cfg8]
  have h22 : localT cfg8 22 = 0 := by norm_num [localT, rawOf, jsMod, cycle, cfg8]
  refine ⟨⟨?_, h4, ?_⟩, ⟨?_, h9, ?_, ?_⟩, ⟨?_, h15, ?_, ?_⟩, ⟨?_, ?_, h22, ?_⟩⟩
  · norm_num [phaseOf, rawOf, jsMod, cycle, cfg8]
  · rw [h4, show (((1/2 : ℚ)) : ℝ) = (1/2 : ℝ) from by norm_num]
    exact getPointAt_pts2_half
  · norm_num [phaseOf, rawOf, jsMod, cycle, cfg8]
  · rw [h9, show (((1 : ℚ)) : ℝ) = (1 : ℝ) from by norm_num]
    exact getPointAt_pts2_one
  · norm_num [showDialog, rawOf, jsMod, cycle, cfg8]
  · norm_num [phaseOf, rawOf, jsMod, cycle, cfg8]
  · rw [h15, show (((1/2 : ℚ)) : ℝ) = (1/2 : ℝ) from by norm_num]
    exact getPointAt_pts2_half
  · norm_num [showDialog, rawOf, jsMod, cycle, cfg8]
  · norm_num [rawOf, jsMod, cycle, cfg8]
  · norm_num [phaseOf, rawOf, jsMod, cycle, cfg8]
  · rw [h22, show (((0 : ℚ)) : ℝ) = (0 : ℝ) from by norm_num]
    exact getPointAt_pts2_zero

/-- C8 counterexample: at `elapsed = 11.5` the phase is Backward but
`localT = 1 - (11.5 - 8 - 3)/8 = 15/16`, not the `1/2` the claim states
(the Backward midpoint is at `elapsed = 15`). -/
theorem C8_counterexample :
    phaseOf cfg8 (23/2) = .backward ∧ localT cfg8 (23/2) = 15/16 ∧
    (15/16 : ℚ) ≠ 1/2 := by
  refine ⟨?_, ?_, by norm_num⟩
  · norm_num [phaseOf, rawOf, jsMod, cycle, cfg8]
  · norm_num [localT, rawOf, jsMod, cycle, cfg8]

end Office3D
